import Mathlib

/-!
# olszewskiego-notify: configuration resolution and SMS propagation

A shallow embedding of `main.go`.  The program merges a YAML configuration
file with command-line flags (`loadConfig`), validates the result
(`config.Validate`) and sends one SMS per subscriber through a Twilio client,
stopping at the first failure (`propagate`).

Modelling conventions.

* Go strings are Lean `String`s.  The only separator the program splits on is
  the one-byte `","`, which never occurs inside a multi-byte UTF-8 sequence, so
  splitting by character agrees with Go's byte-wise split.
* A Go `error` is a `GoError`; `nil` is `none`.  The constructors keep apart the
  three ways an error value comes to exist in this program: returned by a
  library outside the repository, built by `fmt.Errorf`, built by
  `errors.Wrap`.
* The file system, the YAML decoder and the Twilio service are outside the
  repository.  They are parameters: `Env` for the first two, and a
  state-passing `SendSMS` function over an arbitrary world type for the third.
* `propagate` and `main` return, next to their Go result, the list of `SendSMS`
  calls they made together with what each call returned.  The `log.Printf`
  line of `propagate` has no influence on control flow and is not recorded.
-/

namespace Notify

/-! ## Errors -/

/-- A Go `error` value of this program. -/
inductive GoError where
  /-- An error returned by code outside the repository (`ioutil.ReadFile`,
  `yaml.Unmarshal`, `gotwilio`), with its message. -/
  | external (msg : String)
  /-- The result of `fmt.Errorf`, with the formatted message. -/
  | errorf (msg : String)
  /-- The result of `errors.Wrap(cause, message)`. -/
  | wrap (cause : GoError) (message : String)
  deriving DecidableEq

/-- The method `Error()`: the message of an error.  A wrapped error renders as
`message: cause`. -/
def GoError.Error : GoError → String
  | .external msg => msg
  | .errorf msg => msg
  | .wrap cause message => message ++ ": " ++ cause.Error

/-- The function `errors.Wrap` of `github.com/pkg/errors`, on a non-nil error. -/
def errors.Wrap (err : GoError) (message : String) : GoError :=
  .wrap err message

/-! ## The configuration -/

/-- The struct `config`. -/
structure config where
  AccountSID : String
  AuthToken : String
  Subscribers : List String
  NotificationText : String
  Number : String
  deriving DecidableEq

/-- The zero value `config{}`. -/
def config.zero : config := ⟨"", "", [], "", ""⟩

/-- The format `missing := "missing value: %s"` applied to one string. -/
def missing (name : String) : String :=
  "missing value: " ++ name

/-- The method `config.Validate` (main.go, lines 24-40). -/
def config.Validate (conf : config) : Option GoError :=
  if conf.AccountSID = "" then
    some (.errorf (missing "account SID"))
  else if conf.AuthToken = "" then
    some (.errorf (missing "auth token"))
  else if conf.Subscribers.length = 0 then
    some (.errorf (missing "subscribers"))
  else if conf.NotificationText = "" then
    some (.errorf (missing "notification text"))
  else if conf.Number = "" then
    some (.errorf (missing "number"))
  else
    none

/-! ## `strings.Split` and `strings.Join` -/

/-- Splitting a character list at every occurrence of `sep`.  The result has
one more element than there are separators. -/
def splitChars (sep : Char) : List Char → List (List Char)
  | [] => [[]]
  | c :: cs =>
    if c = sep then [] :: splitChars sep cs
    else
      match splitChars sep cs with
      | [] => [[c]]
      | h :: t => (c :: h) :: t

/-- Go's `strings.Split(s, sep)` for a one-character separator, the only form
the program uses (`strings.Split(*subs, ",")`). -/
def strings.Split (s : String) (sep : Char) : List String :=
  (splitChars sep s.data).map String.mk

/-- Go's `strings.Join(elems, sep)`. -/
def strings.Join : List String → String → String
  | [], _ => ""
  | [a], _ => a
  | a :: b :: rest, sep => a ++ sep ++ strings.Join (b :: rest) sep

/-! ## `loadConfig` -/

/-- The values of the six command-line flags after `flag.Parse()`, named as the
local variables of `loadConfig`.  Every flag defaults to `""`. -/
structure Flags where
  number : String
  subs : String
  text : String
  sid : String
  token : String
  confPath : String
  deriving DecidableEq

/-- The two library calls `loadConfig` makes on the configuration file.
`ReadFile` is `ioutil.ReadFile`.  `Unmarshal f conf` is
`yaml.Unmarshal(f, &conf)`: it returns the structure as the decoder left it
and the decoder's error, if any. -/
structure Env where
  ReadFile : String → Except String (List UInt8)
  Unmarshal : List UInt8 → config → config × Option String

/-- The function `loadConfig` (main.go, lines 42-84), on the parsed flags. -/
def loadConfig (env : Env) (fl : Flags) : config × Option GoError :=
  let conf : config := config.zero
  let read : Except (config × GoError) config :=
    if fl.confPath ≠ "" then
      match env.ReadFile fl.confPath with
      | .error err => .error (conf, .external err)
      | .ok f =>
        match env.Unmarshal f conf with
        | (conf, some err) => .error (conf, errors.Wrap (.external err) "unmarshal config")
        | (conf, none) => .ok conf
    else .ok conf
  match read with
  | .error (conf, err) => (conf, some err)
  | .ok conf =>
    let conf := if fl.sid ≠ "" then { conf with AccountSID := fl.sid } else conf
    let conf := if fl.token ≠ "" then { conf with AuthToken := fl.token } else conf
    let conf :=
      if fl.subs ≠ "" then { conf with Subscribers := strings.Split fl.subs ',' } else conf
    let conf := if fl.text ≠ "" then { conf with NotificationText := fl.text } else conf
    let conf := if fl.number ≠ "" then { conf with Number := fl.number } else conf
    match conf.Validate with
    | some err => (conf, some (errors.Wrap err "invalid config"))
    | none => (conf, none)

/-! ## `propagate` -/

/-- The struct `gotwilio.Exception`: what the provider answers when it rejects
a message. -/
structure Exception where
  Code : Int
  Status : Int
  Message : String
  MoreInfo : String
  deriving DecidableEq

/-- The client built by `gotwilio.NewTwilioClient(accountSid, authToken)`. -/
structure Twilio where
  AccountSid : String
  AuthToken : String
  deriving DecidableEq

/-- The five arguments of one call of `twilio.SendSMS`. -/
structure SendCall where
  sender : String
  recipient : String
  body : String
  arg4 : String
  arg5 : String
  deriving DecidableEq

/-- The second and third results of `twilio.SendSMS`: the provider exception
and the transport error, either of which may be nil.  The first result is
discarded by the program. -/
structure SendResult where
  exc : Option Exception
  err : Option String
  deriving DecidableEq

/-- A send succeeded: neither a transport error nor a provider exception. -/
def SendResult.ok (r : SendResult) : Prop :=
  r.err = none ∧ r.exc = none

instance (r : SendResult) : Decidable r.ok := by
  unfold SendResult.ok; infer_instance

/-- The send capability: a call changes the outside world and yields a
result. -/
abbrev Sender (σ : Type) := σ → Twilio → SendCall → SendResult × σ

/-- The message `fmt.Errorf` builds from a provider exception with the format
`"send SMS: code: %d, status: %d, message: %s, more info: %s"`. -/
def excMessage (exc : Exception) : String :=
  "send SMS: code: " ++ toString exc.Code ++ ", status: " ++ toString exc.Status
    ++ ", message: " ++ exc.Message ++ ", more info: " ++ exc.MoreInfo

/-- What a run of `propagate` produces: the returned error, the calls of
`SendSMS` in the order made, each with its result, and the world after. -/
structure Outcome (σ : Type) where
  err : Option GoError
  trace : List (SendCall × SendResult)
  world : σ
  deriving DecidableEq

/-- The function `propagate` (main.go, lines 86-99). -/
def propagate {σ : Type} (SendSMS : Sender σ) (twilio : Twilio) :
    List String → String → String → σ → Outcome σ
  | [], _, _, w => ⟨none, [], w⟩
  | sub :: rest, sender, text, w =>
    let call : SendCall := ⟨sender, sub, text, "", ""⟩
    let res := SendSMS w twilio call
    match res.1.err with
    | some err => ⟨some (errors.Wrap (.external err) "send SMS"), [(call, res.1)], res.2⟩
    | none =>
      match res.1.exc with
      | some exc => ⟨some (.errorf (excMessage exc)), [(call, res.1)], res.2⟩
      | none =>
        let out := propagate SendSMS twilio rest sender text res.2
        ⟨out.err, (call, res.1) :: out.trace, out.world⟩

/-! ## `main` -/

/-- How the process ends: normally, or through `log.Fatal` / `log.Fatalf` with
the logged message. -/
inductive Exit where
  | normal
  | fatal (msg : String)
  deriving DecidableEq

/-- The function `main` (main.go, lines 101-112): the way the process ends and
the `SendSMS` calls made. -/
def main {σ : Type} (env : Env) (SendSMS : Sender σ) (fl : Flags) (w : σ) :
    Exit × List (SendCall × SendResult) :=
  match loadConfig env fl with
  | (_, some err) => (.fatal ("load config: " ++ err.Error), [])
  | (conf, none) =>
    let twilio : Twilio := ⟨conf.AccountSID, conf.AuthToken⟩
    let out := propagate SendSMS twilio conf.Subscribers conf.Number conf.NotificationText w
    match out.err with
    | some err => (.fatal err.Error, out.trace)
    | none => (.normal, out.trace)

/-! ## Specification-side notions -/

/-- The names of the required fields a configuration lacks, in the order
account SID, auth token, subscribers, notification text, number. -/
def missingFields (conf : config) : List String :=
  (if conf.AccountSID = "" then ["account SID"] else [])
    ++ (if conf.AuthToken = "" then ["auth token"] else [])
    ++ (if conf.Subscribers.length = 0 then ["subscribers"] else [])
    ++ (if conf.NotificationText = "" then ["notification text"] else [])
    ++ (if conf.Number = "" then ["number"] else [])

/-- All five required fields are populated. -/
def config.populated (conf : config) : Prop :=
  conf.AccountSID ≠ "" ∧ conf.AuthToken ≠ "" ∧ 0 < conf.Subscribers.length
    ∧ conf.NotificationText ≠ "" ∧ conf.Number ≠ ""

/-- The configuration file stage of `loadConfig` ends without error and leaves
the configuration `fc`: either no path was given and `fc` is the zero value, or
the file at the path was read and decoded into `fc`. -/
def FileYields (env : Env) (confPath : String) (fc : config) : Prop :=
  (confPath = "" ∧ fc = config.zero)
    ∨ (confPath ≠ "" ∧ ∃ f, env.ReadFile confPath = .ok f
        ∧ env.Unmarshal f config.zero = (fc, none))

/-- The configuration after the flag overrides of `loadConfig` (lines 63-77),
written field by field: the flag when it is non-empty, else the value `fc` the
file stage left. -/
def merged (fl : Flags) (fc : config) : config where
  AccountSID := if fl.sid = "" then fc.AccountSID else fl.sid
  AuthToken := if fl.token = "" then fc.AuthToken else fl.token
  Subscribers := if fl.subs = "" then fc.Subscribers else strings.Split fl.subs ','
  NotificationText := if fl.text = "" then fc.NotificationText else fl.text
  Number := if fl.number = "" then fc.Number else fl.number

/-- The call `twilio.SendSMS(from, sub, text, "", "")`. -/
def sendCallFor (sender text sub : String) : SendCall :=
  ⟨sender, sub, text, "", ""⟩

/-- Issuing a list of calls one after the other, whatever they return: the
calls with their results, and the world after the last one. -/
def issue {σ : Type} (SendSMS : Sender σ) (twilio : Twilio) :
    List SendCall → σ → List (SendCall × SendResult) × σ
  | [], w => ([], w)
  | c :: cs, w =>
    let res := SendSMS w twilio c
    let rest := issue SendSMS twilio cs res.2
    ((c, res.1) :: rest.1, rest.2)

/-- The error one iteration of the loop of `propagate` returns for the result
of its send, if any (main.go, lines 90-95). -/
def sendError (r : SendResult) : Option GoError :=
  match r.err with
  | some err => some (errors.Wrap (.external err) "send SMS")
  | none =>
    match r.exc with
    | some exc => some (.errorf (excMessage exc))
    | none => none

/-- An error carries a stage label: its message is `label: rest`. -/
def labelled (label : String) (e : GoError) : Prop :=
  ∃ rest, e.Error = label ++ ": " ++ rest

/-- Reading a list of decimal digits, most significant first, onto `acc`. -/
def decodeFrom (acc : Nat) (l : List Char) : Nat :=
  l.foldl (fun a c => a * 10 + (c.toNat - 48)) acc

/-- No flag given at all. -/
def noFlags : Flags := ⟨"", "", "", "", "", ""⟩

/-- A configuration lacking the auth token, the subscribers and the number. -/
def confThreeMissing : config := ⟨"AC1", "", [], "hi", ""⟩

/-- A file system holding one file, `conf.yaml`, which decodes to an account
SID and an auth token and nothing else. -/
def envSidToken : Env where
  ReadFile := fun path =>
    if path = "conf.yaml" then .ok [97] else .error ("open " ++ path ++ ": no such file or directory")
  Unmarshal := fun _ conf => ({ conf with AccountSID := "AC1", AuthToken := "tok" }, none)

/-- The flags `-config=conf.yaml -subs=+100,+200 -text=hi -from=+999`. -/
def flagsScenarioB : Flags := ⟨"+999", "+100,+200", "hi", "", "", "conf.yaml"⟩

/-- A file system with no file at all. -/
def envNoFile : Env where
  ReadFile := fun path => .error ("open " ++ path ++ ": no such file or directory")
  Unmarshal := fun _ conf => (conf, none)

/-- A file system whose every file fails to decode. -/
def envBadYaml : Env where
  ReadFile := fun _ => .ok [58]
  Unmarshal := fun _ conf => (conf, some "yaml: did not find expected key")

/-- Flags giving a configuration path and, on their own, all five required
values. -/
def flagsAllFive : Flags := ⟨"+999", "+100,+200", "hi", "AC1", "tok", "conf.yaml"⟩

/-- A file system holding one file, `conf.yaml`, which decodes to all five
fields. -/
def envFull : Env where
  ReadFile := fun path =>
    if path = "conf.yaml" then .ok [97] else .error ("open " ++ path ++ ": no such file or directory")
  Unmarshal := fun _ _ => (⟨"AC1", "tok", ["+700", "+800"], "file text", "+555"⟩, none)

/-- The flags `-config=conf.yaml -subs=+100,+200`. -/
def flagsSubsOnly : Flags := ⟨"", "+100,+200", "", "", "", "conf.yaml"⟩

/-- The flags `-from=+999 -subs=, -text=hi -sid=AC1 -token=tok`. -/
def flagsComma : Flags := ⟨"+999", ",", "hi", "AC1", "tok", ""⟩

/-- The flags `-from=+999 -subs=+100,,+200 -text=hi -sid=AC1 -token=tok`. -/
def flagsGap : Flags := ⟨"+999", "+100,,+200", "hi", "AC1", "tok", ""⟩

/-- The client of the example runs. -/
def twilioAC1 : Twilio := ⟨"AC1", "tok"⟩

/-- A provider exception. -/
def excInvalidNumber : Exception := ⟨21211, 400, "invalid number", "https://www.twilio.com/docs/errors/21211"⟩

/-- A provider whose every send succeeds; the world counts the sends. -/
def senderOk : Sender Nat :=
  fun w _ _ => (⟨none, none⟩, w + 1)

/-- A provider that rejects messages to `+200` with `excInvalidNumber` and
accepts all others; the world counts the sends. -/
def senderRejects200 : Sender Nat :=
  fun w _ call =>
    if call.recipient = "+200" then (⟨some excInvalidNumber, none⟩, w + 1)
    else (⟨none, none⟩, w + 1)

/-- A provider that cannot be reached: every send ends in a transport error. -/
def senderDown : Sender Nat :=
  fun w _ _ => (⟨none, some "dial tcp: i/o timeout"⟩, w + 1)

/-- A provider that rejects every message with the given exception. -/
def senderRejecting (exc : Exception) : Sender Unit :=
  fun w _ _ => (⟨some exc, none⟩, w)

/-- An exception whose message holds the text `, more info: `. -/
def excA : Exception := ⟨1, 2, "a, more info: b", "c"⟩

/-- An exception with the same code and status as `excA` and another message
and more-info reference. -/
def excB : Exception := ⟨1, 2, "a", "b, more info: c"⟩

/-! ## Validation -/

theorem Validate_eq_head_missingFields (conf : config) :
    conf.Validate = (missingFields conf).head?.map (fun name => GoError.errorf (missing name)) := by
  unfold config.Validate missingFields
  by_cases h1 : conf.AccountSID = ""
  · simp [h1]
  by_cases h2 : conf.AuthToken = ""
  · simp [h1, h2]
  by_cases h3 : conf.Subscribers.length = 0
  · simp [h1, h2, h3]
  by_cases h4 : conf.NotificationText = ""
  · simp [h1, h2, h3, h4]
  by_cases h5 : conf.Number = ""
  · simp [h1, h2, h3, h4, h5]
  · simp [h1, h2, h3, h4, h5]

theorem missingFields_eq_nil_iff (conf : config) :
    missingFields conf = [] ↔ conf.populated := by
  unfold missingFields config.populated
  by_cases h1 : conf.AccountSID = "" <;> by_cases h2 : conf.AuthToken = ""
    <;> by_cases h3 : conf.Subscribers.length = 0
    <;> by_cases h4 : conf.NotificationText = ""
    <;> by_cases h5 : conf.Number = ""
    <;> simp [h1, h2, h3, h4, h5, Nat.pos_iff_ne_zero]

theorem Validate_eq_none_iff (conf : config) :
    conf.Validate = none ↔ conf.populated := by
  rw [Validate_eq_head_missingFields, ← missingFields_eq_nil_iff]
  cases missingFields conf <;> simp

/-! ## `loadConfig`: the three ways it ends -/

theorem loadConfig_of_fileYields (env : Env) (fl : Flags) (fc : config)
    (hf : FileYields env fl.confPath fc) :
    loadConfig env fl
      = (merged fl fc, (merged fl fc).Validate.map (fun err => errors.Wrap err "invalid config")) := by
  have hread : (if fl.confPath ≠ "" then
        match env.ReadFile fl.confPath with
        | .error err => Except.error (config.zero, GoError.external err)
        | .ok f =>
          match env.Unmarshal f config.zero with
          | (conf, some err) =>
            Except.error (conf, errors.Wrap (.external err) "unmarshal config")
          | (conf, none) => Except.ok conf
      else Except.ok config.zero) = (Except.ok fc : Except (config × GoError) config) := by
    rcases hf with ⟨hp, hfc⟩ | ⟨hp, f, hr, hu⟩
    · simp [hp, hfc]
    · simp [hp, hr, hu]
  unfold loadConfig
  simp only [hread]
  have hm : ∀ c : config, (match c.Validate with
      | some err => (c, some (errors.Wrap err "invalid config"))
      | none => (c, none))
      = (c, c.Validate.map (fun err => errors.Wrap err "invalid config")) := by
    intro c
    cases c.Validate <;> rfl
  simp only [hm]
  unfold merged
  by_cases h1 : fl.sid = "" <;> by_cases h2 : fl.token = "" <;> by_cases h3 : fl.subs = ""
    <;> by_cases h4 : fl.text = "" <;> by_cases h5 : fl.number = ""
    <;> simp [h1, h2, h3, h4, h5]

theorem loadConfig_of_read_error (env : Env) (fl : Flags) (msg : String)
    (hp : fl.confPath ≠ "") (hr : env.ReadFile fl.confPath = .error msg) :
    loadConfig env fl = (config.zero, some (.external msg)) := by
  unfold loadConfig
  simp [hp, hr]

theorem loadConfig_of_unmarshal_error (env : Env) (fl : Flags) (f : List UInt8) (c : config)
    (msg : String) (hp : fl.confPath ≠ "") (hr : env.ReadFile fl.confPath = .ok f)
    (hu : env.Unmarshal f config.zero = (c, some msg)) :
    loadConfig env fl = (c, some (.wrap (.external msg) "unmarshal config")) := by
  unfold loadConfig
  simp [hp, hr, hu, errors.Wrap]

/-- The file stage ends in exactly one of three ways. -/
theorem file_stage_cases (env : Env) (path : String) :
    (∃ fc, FileYields env path fc)
      ∨ (path ≠ "" ∧ ∃ msg, env.ReadFile path = .error msg)
      ∨ (path ≠ "" ∧ ∃ f c msg, env.ReadFile path = .ok f
          ∧ env.Unmarshal f config.zero = (c, some msg)) := by
  by_cases hp : path = ""
  · exact Or.inl ⟨config.zero, Or.inl ⟨hp, rfl⟩⟩
  · cases hr : env.ReadFile path with
    | error msg => exact Or.inr (Or.inl ⟨hp, msg, rfl⟩)
    | ok f =>
      rcases hu : env.Unmarshal f config.zero with ⟨c, _ | msg⟩
      · exact Or.inl ⟨c, Or.inr ⟨hp, f, hr, hu⟩⟩
      · exact Or.inr (Or.inr ⟨hp, f, c, msg, rfl, hu⟩)

theorem loadConfig_ok_populated (env : Env) (fl : Flags) (h : (loadConfig env fl).2 = none) :
    (loadConfig env fl).1.populated := by
  rcases file_stage_cases env fl.confPath with ⟨fc, hf⟩ | ⟨hp, msg, hr⟩ | ⟨hp, f, c, msg, hr, hu⟩
  · rw [loadConfig_of_fileYields env fl fc hf] at h ⊢
    rw [← Validate_eq_none_iff]
    simpa using h
  · rw [loadConfig_of_read_error env fl msg hp hr] at h
    simp at h
  · rw [loadConfig_of_unmarshal_error env fl f c msg hp hr hu] at h
    simp at h

/-! ## `strings.Split` -/

theorem splitChars_ne_nil (sep : Char) (l : List Char) : splitChars sep l ≠ [] := by
  cases l with
  | nil => simp [splitChars]
  | cons c cs =>
    unfold splitChars
    split
    · simp
    · split <;> simp

theorem splitChars_length (sep : Char) (l : List Char) :
    (splitChars sep l).length = l.count sep + 1 := by
  induction l with
  | nil => simp [splitChars]
  | cons c cs ih =>
    unfold splitChars
    by_cases hc : c = sep
    · subst hc
      simp [ih]
    · have hne : (c == sep) = false := by simpa using hc
      rw [if_neg hc, List.count_cons, hne]
      cases hs : splitChars sep cs with
      | nil => exact absurd hs (splitChars_ne_nil sep cs)
      | cons h t =>
        rw [hs] at ih
        simpa using ih

theorem splitChars_no_sep (sep : Char) (l : List Char) :
    ∀ piece ∈ splitChars sep l, sep ∉ piece := by
  induction l with
  | nil => simp [splitChars]
  | cons c cs ih =>
    unfold splitChars
    by_cases hc : c = sep
    · rw [if_pos hc]
      intro piece hp
      rcases List.mem_cons.mp hp with rfl | hp
      · simp
      · exact ih piece hp
    · rw [if_neg hc]
      cases hs : splitChars sep cs with
      | nil => exact absurd hs (splitChars_ne_nil sep cs)
      | cons h t =>
        rw [hs] at ih
        intro piece hp
        rcases List.mem_cons.mp hp with rfl | hp
        · intro hmem
          rcases List.mem_cons.mp hmem with heq | hmem
          · exact hc heq.symm
          · exact ih h (List.mem_cons_self _ _) hmem
        · exact ih piece (List.mem_cons_of_mem _ hp)

theorem Join_splitChars (sep : Char) (l : List Char) :
    strings.Join ((splitChars sep l).map String.mk) (String.mk [sep]) = String.mk l := by
  induction l with
  | nil => simp [splitChars, strings.Join]
  | cons c cs ih =>
    unfold splitChars
    by_cases hc : c = sep
    · subst hc
      rw [if_pos rfl]
      cases hs : splitChars c cs with
      | nil => exact absurd hs (splitChars_ne_nil c cs)
      | cons h t =>
        rw [hs] at ih
        simp only [List.map_cons, strings.Join] at ih ⊢
        rw [ih]
        apply String.ext
        simp
    · rw [if_neg hc]
      cases hs : splitChars sep cs with
      | nil => exact absurd hs (splitChars_ne_nil sep cs)
      | cons h t =>
        rw [hs] at ih
        cases t with
        | nil =>
          simp only [List.map_cons, List.map_nil, strings.Join] at ih ⊢
          have hh : h = cs := by simpa using congrArg String.data ih
          rw [hh]
        | cons b r =>
          simp only [List.map_cons, strings.Join] at ih ⊢
          have hd := congrArg String.data ih
          apply String.ext
          simp only [String.data_append] at hd ⊢
          simp [← hd]

theorem Join_Split (s : String) : strings.Join (strings.Split s ',') "," = s := by
  have h := Join_splitChars ',' s.data
  exact h

theorem Split_no_comma (s : String) : ∀ piece ∈ strings.Split s ',', ',' ∉ piece.data := by
  intro piece hp
  unfold strings.Split at hp
  rcases List.mem_map.mp hp with ⟨chars, hc, rfl⟩
  exact splitChars_no_sep ',' s.data chars hc

theorem Split_length (s : String) : (strings.Split s ',').length = s.data.count ',' + 1 := by
  unfold strings.Split
  rw [List.length_map, splitChars_length]

/-! ## `propagate` -/

theorem sendError_eq_none_iff (r : SendResult) : sendError r = none ↔ r.ok := by
  unfold sendError SendResult.ok
  cases r.err <;> cases r.exc <;> simp

theorem propagate_nil {σ : Type} (S : Sender σ) (tw : Twilio) (sender text : String) (w : σ) :
    propagate S tw [] sender text w = ⟨none, [], w⟩ := rfl

theorem propagate_cons_failed {σ : Type} (S : Sender σ) (tw : Twilio) (sub : String)
    (rest : List String) (sender text : String) (w : σ)
    (h : ¬ (S w tw (sendCallFor sender text sub)).1.ok) :
    propagate S tw (sub :: rest) sender text w
      = ⟨sendError (S w tw (sendCallFor sender text sub)).1,
          [(sendCallFor sender text sub, (S w tw (sendCallFor sender text sub)).1)],
          (S w tw (sendCallFor sender text sub)).2⟩ := by
  unfold SendResult.ok at h
  unfold sendCallFor at h ⊢
  rw [propagate, sendError]
  cases he : (S w tw ⟨sender, sub, text, "", ""⟩).1.err with
  | some m => simp
  | none =>
    cases hx : (S w tw ⟨sender, sub, text, "", ""⟩).1.exc with
    | some exc => simp
    | none => exact absurd ⟨he, hx⟩ h

theorem propagate_cons_ok {σ : Type} (S : Sender σ) (tw : Twilio) (sub : String)
    (rest : List String) (sender text : String) (w : σ)
    (h : (S w tw (sendCallFor sender text sub)).1.ok) :
    propagate S tw (sub :: rest) sender text w
      = ⟨(propagate S tw rest sender text (S w tw (sendCallFor sender text sub)).2).err,
          (sendCallFor sender text sub, (S w tw (sendCallFor sender text sub)).1)
            :: (propagate S tw rest sender text (S w tw (sendCallFor sender text sub)).2).trace,
          (propagate S tw rest sender text (S w tw (sendCallFor sender text sub)).2).world⟩ := by
  unfold SendResult.ok at h
  unfold sendCallFor at h ⊢
  rw [propagate]
  simp [h.1, h.2]

/-- The calls `propagate` makes are those of issuing a send for each of the
first `n` subscribers, and either `n` is the number of subscribers or the last
call made failed. -/
theorem propagate_issue {σ : Type} (S : Sender σ) (tw : Twilio) (subs : List String)
    (sender text : String) (w : σ) :
    ∃ n, n ≤ subs.length
      ∧ ((propagate S tw subs sender text w).trace, (propagate S tw subs sender text w).world)
          = issue S tw ((subs.take n).map (sendCallFor sender text)) w
      ∧ (n = subs.length
          ∨ ∃ e, (propagate S tw subs sender text w).trace.getLast? = some e ∧ ¬ e.2.ok) := by
  induction subs generalizing w with
  | nil => exact ⟨0, le_refl _, rfl, Or.inl rfl⟩
  | cons sub rest ih =>
    by_cases h : (S w tw (sendCallFor sender text sub)).1.ok
    · obtain ⟨n, hn, htr, hlast⟩ := ih (S w tw (sendCallFor sender text sub)).2
      refine ⟨n + 1, by simpa using hn, ?_, ?_⟩
      · rw [propagate_cons_ok S tw sub rest sender text w h]
        simp only [List.take_succ_cons, List.map_cons, issue]
        rw [← htr]
      · rcases hlast with hlen | ⟨e, he, hbad⟩
        · exact Or.inl (by simp [hlen])
        · refine Or.inr ⟨e, ?_, hbad⟩
          rw [propagate_cons_ok S tw sub rest sender text w h]
          cases ht : (propagate S tw rest sender text
              (S w tw (sendCallFor sender text sub)).2).trace with
          | nil => rw [ht] at he; simp at he
          | cons x xs =>
            rw [ht] at he
            simpa [List.getLast?_cons_cons] using he
    · refine ⟨1, by simp, ?_,
        Or.inr ⟨(sendCallFor sender text sub, (S w tw (sendCallFor sender text sub)).1), ?_, h⟩⟩
      · rw [propagate_cons_failed S tw sub rest sender text w h]
        simp [issue]
      · rw [propagate_cons_failed S tw sub rest sender text w h]
        rfl

/-- Every send `propagate` made before its last one succeeded. -/
theorem propagate_dropLast_ok {σ : Type} (S : Sender σ) (tw : Twilio) (subs : List String)
    (sender text : String) (w : σ) :
    ∀ e ∈ (propagate S tw subs sender text w).trace.dropLast, e.2.ok := by
  induction subs generalizing w with
  | nil => simp [propagate_nil]
  | cons sub rest ih =>
    by_cases h : (S w tw (sendCallFor sender text sub)).1.ok
    · rw [propagate_cons_ok S tw sub rest sender text w h]
      intro e he
      have ih' := ih (S w tw (sendCallFor sender text sub)).2
      cases ht : (propagate S tw rest sender text
          (S w tw (sendCallFor sender text sub)).2).trace with
      | nil => rw [ht] at he; simp at he
      | cons x xs =>
        rw [ht] at he ih'
        rw [List.dropLast_cons₂] at he
        rcases List.mem_cons.mp he with rfl | he
        · exact h
        · exact ih' e he
    · rw [propagate_cons_failed S tw sub rest sender text w h]
      simp

/-- The error `propagate` returns is the one its last send gives rise to. -/
theorem propagate_err {σ : Type} (S : Sender σ) (tw : Twilio) (subs : List String)
    (sender text : String) (w : σ) :
    (propagate S tw subs sender text w).err
      = (propagate S tw subs sender text w).trace.getLast?.bind (fun e => sendError e.2) := by
  induction subs generalizing w with
  | nil => simp [propagate_nil]
  | cons sub rest ih =>
    by_cases h : (S w tw (sendCallFor sender text sub)).1.ok
    · rw [propagate_cons_ok S tw sub rest sender text w h]
      have ih' := ih (S w tw (sendCallFor sender text sub)).2
      cases ht : (propagate S tw rest sender text
          (S w tw (sendCallFor sender text sub)).2).trace with
      | nil =>
        rw [ht] at ih'
        simp [ih', (sendError_eq_none_iff _).mpr h]
      | cons x xs =>
        rw [ht] at ih'
        simpa [List.getLast?_cons_cons] using ih'
    · rw [propagate_cons_failed S tw sub rest sender text w h]
      simp

/-! ## Decimal rendering and the message of a provider exception -/

theorem digitChar_value (k : Nat) (hk : k < 10) : (Nat.digitChar k).toNat - 48 = k := by
  interval_cases k <;> rfl

theorem digitChar_ne (k : Nat) (hk : k < 10) :
    Nat.digitChar k ≠ ',' ∧ Nat.digitChar k ≠ '-' := by
  interval_cases k <;> decide

theorem decodeFrom_toDigitsCore (f : Nat) : ∀ (n : Nat) (ds : List Char), n < f →
    decodeFrom 0 (Nat.toDigitsCore 10 f n ds) = decodeFrom n ds := by
  induction f with
  | zero => intro n ds h; omega
  | succ f ih =>
    intro n ds h
    unfold Nat.toDigitsCore
    by_cases h0 : n / 10 = 0
    · simp only [h0, if_true]
      have hn : n < 10 := by omega
      have hv := digitChar_value (n % 10) (Nat.mod_lt _ (by norm_num))
      rw [Nat.mod_eq_of_lt hn] at hv
      simp [decodeFrom, Nat.mod_eq_of_lt hn, hv]
    · simp only [h0, if_false]
      rw [ih (n / 10) _ (by omega)]
      simp only [decodeFrom, List.foldl_cons]
      rw [digitChar_value (n % 10) (Nat.mod_lt _ (by norm_num))]
      congr 1
      omega

theorem toDigits_injective (a b : Nat) (h : Nat.toDigits 10 a = Nat.toDigits 10 b) : a = b := by
  have ha := decodeFrom_toDigitsCore (a + 1) a [] (by omega)
  have hb := decodeFrom_toDigitsCore (b + 1) b [] (by omega)
  unfold Nat.toDigits at h
  rw [h, hb] at ha
  simpa [decodeFrom] using ha.symm

theorem toDigitsCore_chars (f : Nat) : ∀ (n : Nat) (ds : List Char),
    ∀ c ∈ Nat.toDigitsCore 10 f n ds, c ∈ ds ∨ (c ≠ ',' ∧ c ≠ '-') := by
  induction f with
  | zero => intro n ds c hc; exact Or.inl hc
  | succ f ih =>
    intro n ds c hc
    unfold Nat.toDigitsCore at hc
    by_cases h0 : n / 10 = 0
    · simp only [h0, if_true] at hc
      rcases List.mem_cons.mp hc with rfl | hc
      · exact Or.inr (digitChar_ne _ (Nat.mod_lt _ (by norm_num)))
      · exact Or.inl hc
    · simp only [h0, if_false] at hc
      rcases ih _ _ c hc with hc | hc
      · rcases List.mem_cons.mp hc with rfl | hc
        · exact Or.inr (digitChar_ne _ (Nat.mod_lt _ (by norm_num)))
        · exact Or.inl hc
      · exact Or.inr hc

theorem toDigits_chars (n : Nat) : ∀ c ∈ Nat.toDigits 10 n, c ≠ ',' ∧ c ≠ '-' := by
  intro c hc
  rcases toDigitsCore_chars (n + 1) n [] c hc with h | h
  · simp at h
  · exact h

theorem toString_int_data (i : Int) :
    (toString i).data = match i with
      | Int.ofNat m => Nat.toDigits 10 m
      | Int.negSucc m => '-' :: Nat.toDigits 10 (m + 1) := by
  cases i <;> rfl

theorem toString_int_no_comma (i : Int) : ',' ∉ (toString i).data := by
  rw [toString_int_data]
  cases i with
  | ofNat m => exact fun h => (toDigits_chars m _ h).1 rfl
  | negSucc m =>
    intro h
    rcases List.mem_cons.mp h with h | h
    · exact absurd h (by decide)
    · exact (toDigits_chars _ _ h).1 rfl

theorem toString_int_injective (i j : Int) (h : (toString i).data = (toString j).data) : i = j := by
  rw [toString_int_data, toString_int_data] at h
  cases i with
  | ofNat a =>
    cases j with
    | ofNat b => simp only at h; rw [toDigits_injective a b h]
    | negSucc b =>
      simp only at h
      have : '-' ∈ Nat.toDigits 10 a := by rw [h]; exact List.mem_cons_self _ _
      exact absurd rfl (toDigits_chars a _ this).2
  | negSucc a =>
    cases j with
    | ofNat b =>
      simp only at h
      have : '-' ∈ Nat.toDigits 10 b := by rw [← h]; exact List.mem_cons_self _ _
      exact absurd rfl (toDigits_chars b _ this).2
    | negSucc b =>
      simp only [List.cons.injEq, true_and] at h
      have := toDigits_injective _ _ h
      have : a = b := by omega
      rw [this]

theorem append_sep_cancel (sep : Char) : ∀ (l₁ l₂ t₁ t₂ : List Char),
    sep ∉ l₁ → sep ∉ l₂ → l₁ ++ sep :: t₁ = l₂ ++ sep :: t₂ → l₁ = l₂ ∧ t₁ = t₂ := by
  intro l₁
  induction l₁ with
  | nil =>
    intro l₂ t₁ t₂ _ h₂ h
    cases l₂ with
    | nil => simpa using h
    | cons c cs =>
      simp only [List.nil_append, List.cons_append, List.cons.injEq] at h
      exact absurd (h.1 ▸ List.mem_cons_self _ _) h₂
  | cons a as ih =>
    intro l₂ t₁ t₂ h₁ h₂ h
    cases l₂ with
    | nil =>
      simp only [List.nil_append, List.cons_append, List.cons.injEq] at h
      exact absurd (h.1 ▸ List.mem_cons_self _ _) h₁
    | cons c cs =>
      simp only [List.cons_append, List.cons.injEq] at h
      obtain ⟨hl, ht⟩ := ih cs t₁ t₂ (fun hm => h₁ (List.mem_cons_of_mem _ hm))
        (fun hm => h₂ (List.mem_cons_of_mem _ hm)) h.2
      exact ⟨by rw [h.1, hl], ht⟩

theorem excMessage_data (e : Exception) :
    (excMessage e).data
      = "send SMS: code: ".data ++ ((toString e.Code).data ++ ',' :: (" status: ".data
          ++ ((toString e.Status).data ++ ',' :: (" message: ".data
            ++ (e.Message.data ++ ',' :: (" more info: ".data ++ e.MoreInfo.data)))))) := by
  simp [excMessage, String.data_append]

theorem excMessage_recover (e e' : Exception) (h : excMessage e = excMessage e') :
    e.Code = e'.Code ∧ e.Status = e'.Status
      ∧ e.Message ++ ", more info: " ++ e.MoreInfo = e'.Message ++ ", more info: " ++ e'.MoreInfo
      ∧ (',' ∉ e.Message.data → ',' ∉ e'.Message.data → e = e') := by
  have hd := congrArg String.data h
  rw [excMessage_data, excMessage_data] at hd
  have h1 := List.append_cancel_left hd
  obtain ⟨hc, h2⟩ := append_sep_cancel ',' _ _ _ _ (toString_int_no_comma _)
    (toString_int_no_comma _) h1
  have h3 := List.append_cancel_left h2
  obtain ⟨hs, h4⟩ := append_sep_cancel ',' _ _ _ _ (toString_int_no_comma _)
    (toString_int_no_comma _) h3
  have h5 := List.append_cancel_left h4
  have hcode := toString_int_injective _ _ hc
  have hstatus := toString_int_injective _ _ hs
  refine ⟨hcode, hstatus, ?_, ?_⟩
  · apply String.ext
    simpa [String.data_append] using h5
  · intro hm hm'
    obtain ⟨hmsg, h6⟩ := append_sep_cancel ',' _ _ _ _ hm hm' h5
    have h7 := List.append_cancel_left h6
    cases e
    cases e'
    simp only [Exception.mk.injEq]
    exact ⟨hcode, hstatus, String.ext hmsg, String.ext h7⟩

theorem issue_map_fst {σ : Type} (S : Sender σ) (tw : Twilio) (calls : List SendCall) (w : σ) :
    (issue S tw calls w).1.map Prod.fst = calls := by
  induction calls generalizing w with
  | nil => rfl
  | cons c cs ih => simp [issue, ih]

theorem propagate_calls_eq {σ : Type} (S : Sender σ) (tw : Twilio) (subs : List String)
    (sender text : String) (w : σ) (n : Nat)
    (h : ((propagate S tw subs sender text w).trace, (propagate S tw subs sender text w).world)
      = issue S tw ((subs.take n).map (sendCallFor sender text)) w) :
    (propagate S tw subs sender text w).trace.map Prod.fst
      = (subs.take n).map (sendCallFor sender text) := by
  have h1 := congrArg Prod.fst h
  simp only at h1
  rw [h1, issue_map_fst]

theorem mem_dropLast_or_getLast {α : Type} (l : List α) (a : α) (h : a ∈ l) :
    a ∈ l.dropLast ∨ l.getLast? = some a := by
  cases hl : l.getLast? with
  | none =>
    rw [List.getLast?_eq_none_iff] at hl
    rw [hl] at h
    simp at h
  | some b =>
    have hsplit : l.dropLast ++ [b] = l := List.dropLast_append_getLast? b (by simp [hl])
    rw [← hsplit] at h
    rcases List.mem_append.mp h with h | h
    · exact Or.inl h
    · exact Or.inr (by simp at h; rw [h])

/-- When `propagate` returns nil, every send it made succeeded. -/
theorem propagate_ok_all {σ : Type} (S : Sender σ) (tw : Twilio) (subs : List String)
    (sender text : String) (w : σ) (h : (propagate S tw subs sender text w).err = none) :
    ∀ e ∈ (propagate S tw subs sender text w).trace, e.2.ok := by
  intro e he
  rcases mem_dropLast_or_getLast _ e he with hd | hl
  · exact propagate_dropLast_ok S tw subs sender text w e hd
  · rw [propagate_err, hl] at h
    exact (sendError_eq_none_iff e.2).mp (by simpa using h)

theorem propagate_trace_head {σ : Type} (S : Sender σ) (tw : Twilio) (sub : String)
    (rest : List String) (sender text : String) (w : σ) :
    (propagate S tw (sub :: rest) sender text w).trace.head?
      = some (sendCallFor sender text sub, (S w tw (sendCallFor sender text sub)).1) := by
  by_cases h : (S w tw (sendCallFor sender text sub)).1.ok
  · rw [propagate_cons_ok S tw sub rest sender text w h]
    rfl
  · rw [propagate_cons_failed S tw sub rest sender text w h]
    rfl

/-- An error `loadConfig` returns comes from reading, decoding or validating. -/
theorem loadConfig_err_cases (env : Env) (fl : Flags) (e : GoError)
    (h : (loadConfig env fl).2 = some e) :
    (∃ msg, fl.confPath ≠ "" ∧ env.ReadFile fl.confPath = .error msg ∧ e = .external msg
        ∧ e.Error = msg)
      ∨ (∃ f c msg, fl.confPath ≠ "" ∧ env.ReadFile fl.confPath = .ok f
          ∧ env.Unmarshal f config.zero = (c, some msg)
          ∧ e = .wrap (.external msg) "unmarshal config"
          ∧ e.Error = "unmarshal config: " ++ msg)
      ∨ (∃ name, (loadConfig env fl).1.Validate = some (.errorf ("missing value: " ++ name))
          ∧ e = .wrap (.errorf ("missing value: " ++ name)) "invalid config"
          ∧ e.Error = "invalid config: missing value: " ++ name) := by
  rcases file_stage_cases env fl.confPath with ⟨fc, hf⟩ | ⟨hp, msg, hr⟩ | ⟨hp, f, c, msg, hr, hu⟩
  · right; right
    rw [loadConfig_of_fileYields env fl fc hf] at h ⊢
    simp only at h ⊢
    rw [Validate_eq_head_missingFields] at h ⊢
    cases hm : missingFields (merged fl fc) with
    | nil => rw [hm] at h; simp at h
    | cons name later =>
      rw [hm] at h
      simp only [List.head?_cons, Option.map_some', Option.some.injEq] at h
      refine ⟨name, rfl, ?_, ?_⟩
      · rw [← h]; rfl
      · rw [← h]
        apply String.ext
        simp [GoError.Error, errors.Wrap, missing, String.data_append]
  · left
    rw [loadConfig_of_read_error env fl msg hp hr] at h
    simp only [Option.some.injEq] at h
    exact ⟨msg, hp, hr, h.symm, by rw [← h]; rfl⟩
  · right; left
    rw [loadConfig_of_unmarshal_error env fl f c msg hp hr hu] at h
    simp only [Option.some.injEq] at h
    refine ⟨f, c, msg, hp, hr, hu, h.symm, ?_⟩
    rw [← h]
    apply String.ext
    simp [GoError.Error, String.data_append]

theorem main_of_loadConfig_err {σ : Type} (env : Env) (S : Sender σ) (fl : Flags) (w : σ)
    (e : GoError) (h : (loadConfig env fl).2 = some e) :
    main env S fl w = (.fatal ("load config: " ++ e.Error), []) := by
  unfold main
  rcases hl : loadConfig env fl with ⟨conf, err⟩
  rw [hl] at h
  simp only at h
  subst h
  rfl

theorem main_of_loadConfig_ok {σ : Type} (env : Env) (S : Sender σ) (fl : Flags) (w : σ)
    (h : (loadConfig env fl).2 = none) :
    main env S fl w
      = (match (propagate S ⟨(loadConfig env fl).1.AccountSID, (loadConfig env fl).1.AuthToken⟩
            (loadConfig env fl).1.Subscribers (loadConfig env fl).1.Number
            (loadConfig env fl).1.NotificationText w).err with
          | some err => Exit.fatal err.Error
          | none => Exit.normal,
        (propagate S ⟨(loadConfig env fl).1.AccountSID, (loadConfig env fl).1.AuthToken⟩
            (loadConfig env fl).1.Subscribers (loadConfig env fl).1.Number
            (loadConfig env fl).1.NotificationText w).trace) := by
  unfold main
  rcases hl : loadConfig env fl with ⟨conf, err⟩
  rw [hl] at h
  simp only at h
  subst h
  simp only
  split <;> rename_i heq <;> simp [heq]

/-- An error `propagate` returns is a wrapped transport error or the rendering
of a provider exception, and its message begins with `send SMS: `. -/
theorem propagate_err_cases {σ : Type} (S : Sender σ) (tw : Twilio) (subs : List String)
    (sender text : String) (w : σ) (e' : GoError)
    (he' : (propagate S tw subs sender text w).err = some e') :
    ((∃ msg, e' = .wrap (.external msg) "send SMS" ∧ e'.Error = "send SMS: " ++ msg)
        ∨ (∃ exc : Exception, e' = .errorf (excMessage exc)))
      ∧ labelled "send SMS" e' := by
  rw [propagate_err] at he'
  cases hl : (propagate S tw subs sender text w).trace.getLast? with
  | none => rw [hl] at he'; simp at he'
  | some last =>
    rw [hl] at he'
    simp only [Option.some_bind] at he'
    unfold sendError at he'
    cases herr : last.2.err with
    | some msg =>
      rw [herr] at he'
      simp only [Option.some.injEq] at he'
      subst he'
      refine ⟨Or.inl ⟨msg, rfl, ?_⟩, msg, rfl⟩
      apply String.ext
      simp [GoError.Error, errors.Wrap, String.data_append]
    | none =>
      rw [herr] at he'
      cases hexc : last.2.exc with
      | none => rw [hexc] at he'; simp at he'
      | some exc =>
        rw [hexc] at he'
        simp only [Option.some.injEq] at he'
        subst he'
        refine ⟨Or.inr ⟨exc, rfl⟩,
          "code: " ++ toString exc.Code ++ ", status: " ++ toString exc.Status
            ++ ", message: " ++ exc.Message ++ ", more info: " ++ exc.MoreInfo, ?_⟩
        apply String.ext
        simp [GoError.Error, excMessage, String.data_append]

/-- After sends that all succeed, `propagate` goes on with the remaining
subscribers from the world those sends left. -/
theorem propagate_append_ok {σ : Type} (S : Sender σ) (tw : Twilio) (pre rest : List String)
    (sender text : String) (w : σ)
    (hok : ∀ e ∈ (issue S tw (pre.map (sendCallFor sender text)) w).1, e.2.ok) :
    propagate S tw (pre ++ rest) sender text w
      = ⟨(propagate S tw rest sender text
            (issue S tw (pre.map (sendCallFor sender text)) w).2).err,
          (issue S tw (pre.map (sendCallFor sender text)) w).1
            ++ (propagate S tw rest sender text
                (issue S tw (pre.map (sendCallFor sender text)) w).2).trace,
          (propagate S tw rest sender text
            (issue S tw (pre.map (sendCallFor sender text)) w).2).world⟩ := by
  induction pre generalizing w with
  | nil => rfl
  | cons sub pre ih =>
    have hfirst : (S w tw (sendCallFor sender text sub)).1.ok :=
      hok (sendCallFor sender text sub, (S w tw (sendCallFor sender text sub)).1)
        (by simp [issue])
    have hrest : ∀ e ∈ (issue S tw (pre.map (sendCallFor sender text))
        (S w tw (sendCallFor sender text sub)).2).1, e.2.ok := by
      intro e he
      exact hok e (by simp [issue, he])
    rw [List.cons_append, propagate_cons_ok S tw sub (pre ++ rest) sender text w hfirst,
      ih (S w tw (sendCallFor sender text sub)).2 hrest]
    simp [issue]

/-- The first failing send decides what `propagate` returns. -/
theorem propagate_first_failure {σ : Type} (S : Sender σ) (tw : Twilio)
    (pre : List String) (sub : String) (post : List String) (sender text : String) (w : σ)
    (hok : ∀ e ∈ (issue S tw (pre.map (sendCallFor sender text)) w).1, e.2.ok)
    (hbad : ¬ (S (issue S tw (pre.map (sendCallFor sender text)) w).2 tw
      (sendCallFor sender text sub)).1.ok) :
    (propagate S tw (pre ++ sub :: post) sender text w).err
        = sendError (S (issue S tw (pre.map (sendCallFor sender text)) w).2 tw
            (sendCallFor sender text sub)).1
      ∧ (propagate S tw (pre ++ sub :: post) sender text w).trace
        = (issue S tw (pre.map (sendCallFor sender text)) w).1
            ++ [(sendCallFor sender text sub,
                (S (issue S tw (pre.map (sendCallFor sender text)) w).2 tw
                  (sendCallFor sender text sub)).1)] := by
  rw [propagate_append_ok S tw pre (sub :: post) sender text w hok,
    propagate_cons_failed S tw sub post sender text _ hbad]
  exact ⟨rfl, rfl⟩

/-! ## Claims about the configuration -/

/-- C1: a configuration lacking at least one of the five required fields is
rejected by `config.Validate` with `missing value: <name>`, where `<name>` is
the first lacking field in the order account SID, auth token, subscribers,
notification text, number, whatever later fields are lacking too.  The
all-empty configuration, and so `loadConfig` without file and flags, gives
`missing value: account SID`. -/
theorem Validate_reports_first_missing (conf : config)
    (h : conf.AccountSID = "" ∨ conf.AuthToken = "" ∨ conf.NotificationText = ""
      ∨ conf.Number = "" ∨ conf.Subscribers.length = 0) :
    (∃ name later, missingFields conf = name :: later
        ∧ conf.Validate = some (.errorf ("missing value: " ++ name)))
      ∧ (conf.AccountSID = "" →
          conf.Validate = some (.errorf "missing value: account SID"))
      ∧ (conf.AccountSID ≠ "" → conf.AuthToken = "" →
          conf.Validate = some (.errorf "missing value: auth token"))
      ∧ (conf.AccountSID ≠ "" → conf.AuthToken ≠ "" → conf.Subscribers.length = 0 →
          conf.Validate = some (.errorf "missing value: subscribers"))
      ∧ (conf.AccountSID ≠ "" → conf.AuthToken ≠ "" → conf.Subscribers.length ≠ 0 →
          conf.NotificationText = "" →
          conf.Validate = some (.errorf "missing value: notification text"))
      ∧ (conf.AccountSID ≠ "" → conf.AuthToken ≠ "" → conf.Subscribers.length ≠ 0 →
          conf.NotificationText ≠ "" → conf.Number = "" →
          conf.Validate = some (.errorf "missing value: number"))
      ∧ config.zero.Validate = some (.errorf "missing value: account SID")
      ∧ ∀ env : Env, loadConfig env noFlags
          = (config.zero, some (.wrap (.errorf "missing value: account SID") "invalid config")) := by
  refine ⟨?_, ?_, ?_, ?_, ?_, ?_, by decide, ?_⟩
  · have hv := Validate_eq_head_missingFields conf
    cases hm : missingFields conf with
    | nil =>
      have hpop := (missingFields_eq_nil_iff conf).mp hm
      obtain ⟨h1, h2, h3, h4, h5⟩ := hpop
      rcases h with h | h | h | h | h
      · exact absurd h h1
      · exact absurd h h2
      · exact absurd h h4
      · exact absurd h h5
      · omega
    | cons name later =>
      rw [hm] at hv
      exact ⟨name, later, rfl, by simpa [missing] using hv⟩
  · intro h1
    simp [config.Validate, h1, missing]
  · intro h1 h2
    simp [config.Validate, h1, h2, missing]
  · intro h1 h2 h3
    simp [config.Validate, h1, h2, h3, missing]
  · intro h1 h2 h3 h4
    simp [config.Validate, h1, h2, h3, h4, missing]
  · intro h1 h2 h3 h4 h5
    simp [config.Validate, h1, h2, h3, h4, h5, missing]
  · intro env
    rw [loadConfig_of_fileYields env noFlags config.zero (Or.inl ⟨rfl, rfl⟩)]
    decide

theorem Validate_reports_first_missing_witness :
    (confThreeMissing.AccountSID = "" ∨ confThreeMissing.AuthToken = ""
        ∨ confThreeMissing.NotificationText = "" ∨ confThreeMissing.Number = ""
        ∨ confThreeMissing.Subscribers.length = 0)
      ∧ missingFields confThreeMissing = ["auth token", "subscribers", "number"]
      ∧ confThreeMissing.Validate = some (.errorf "missing value: auth token") :=
  ⟨by decide, by decide,
    (Validate_reports_first_missing confThreeMissing (by decide)).2.2.1 (by decide) (by decide)⟩

/-- C3: when the file stage leaves the configuration `fc` (the zero value when
no file is given), the configuration `loadConfig` builds takes each of the five
fields from the flag when the flag is non-empty and from `fc` when it is empty,
each field on its own.  With no flags it is `fc`, and is returned without
error when `fc` is fully populated.  With a file giving SID and token only and
the flags `-subs=+100,+200 -text=hi -from=+999`, all five fields are populated
and `loadConfig` returns without error. -/
theorem loadConfig_merges_per_field (env : Env) (fl : Flags) (fc : config)
    (hf : FileYields env fl.confPath fc) :
    (loadConfig env fl).1.AccountSID = (if fl.sid = "" then fc.AccountSID else fl.sid)
      ∧ (loadConfig env fl).1.AuthToken = (if fl.token = "" then fc.AuthToken else fl.token)
      ∧ (loadConfig env fl).1.Subscribers
          = (if fl.subs = "" then fc.Subscribers else strings.Split fl.subs ',')
      ∧ (loadConfig env fl).1.NotificationText
          = (if fl.text = "" then fc.NotificationText else fl.text)
      ∧ (loadConfig env fl).1.Number = (if fl.number = "" then fc.Number else fl.number)
      ∧ (fl.confPath = "" → fc = config.zero)
      ∧ (fl.sid = "" → fl.token = "" → fl.subs = "" → fl.text = "" → fl.number = "" →
          (loadConfig env fl).1 = fc ∧ (fc.populated → loadConfig env fl = (fc, none)))
      ∧ (fc.AccountSID ≠ "" → fc.AuthToken ≠ "" → fl.sid = "" → fl.token = "" →
          fl.subs = "+100,+200" → fl.text = "hi" → fl.number = "+999" →
          loadConfig env fl
            = (⟨fc.AccountSID, fc.AuthToken, ["+100", "+200"], "hi", "+999"⟩, none)) := by
  rw [loadConfig_of_fileYields env fl fc hf]
  refine ⟨rfl, rfl, rfl, rfl, rfl, ?_, ?_, ?_⟩
  · intro hp
    rcases hf with ⟨_, hz⟩ | ⟨hne, _⟩
    · exact hz
    · exact absurd hp hne
  · intro h1 h2 h3 h4 h5
    have hm : merged fl fc = fc := by
      simp [merged, h1, h2, h3, h4, h5]
    rw [hm]
    refine ⟨rfl, fun hpop => ?_⟩
    rw [(Validate_eq_none_iff fc).mpr hpop]
    rfl
  · intro hs ht h1 h2 h3 h4 h5
    have hsplit : strings.Split "+100,+200" ',' = ["+100", "+200"] := by decide
    have hm : merged fl fc = ⟨fc.AccountSID, fc.AuthToken, ["+100", "+200"], "hi", "+999"⟩ := by
      simp [merged, h1, h2, h3, h4, h5, hsplit]
    rw [hm]
    have hv : (⟨fc.AccountSID, fc.AuthToken, ["+100", "+200"], "hi", "+999"⟩ : config).Validate
        = none := by
      rw [Validate_eq_none_iff]
      exact ⟨hs, ht, by simp, by simp, by simp⟩
    rw [hv]
    rfl

theorem loadConfig_merges_per_field_witness :
    FileYields envSidToken flagsScenarioB.confPath ⟨"AC1", "tok", [], "", ""⟩
      ∧ loadConfig envSidToken flagsScenarioB
          = (⟨"AC1", "tok", ["+100", "+200"], "hi", "+999"⟩, none) :=
  ⟨Or.inr ⟨by decide, [97], rfl, rfl⟩,
    (loadConfig_merges_per_field envSidToken flagsScenarioB ⟨"AC1", "tok", [], "", ""⟩
      (Or.inr ⟨by decide, [97], rfl, rfl⟩)).2.2.2.2.2.2.2
      (by decide) (by decide) rfl rfl rfl rfl rfl⟩

/-- C4: when `loadConfig` returns without error, the configuration it returns
has a non-empty account SID, auth token, notification text and number and at
least one subscriber; `config.Validate` returns nil exactly for such
configurations; and `main` makes no send at all unless `loadConfig` returned
without error, so `propagate` only ever runs on a fully populated
configuration. -/
theorem loadConfig_ok_is_valid (env : Env) (fl : Flags) (h : (loadConfig env fl).2 = none) :
    ((loadConfig env fl).1.AccountSID ≠ "" ∧ (loadConfig env fl).1.AuthToken ≠ ""
        ∧ 0 < (loadConfig env fl).1.Subscribers.length
        ∧ (loadConfig env fl).1.NotificationText ≠ "" ∧ (loadConfig env fl).1.Number ≠ "")
      ∧ (∀ conf : config, conf.Validate = none ↔
          (conf.AccountSID ≠ "" ∧ conf.AuthToken ≠ "" ∧ 0 < conf.Subscribers.length
            ∧ conf.NotificationText ≠ "" ∧ conf.Number ≠ ""))
      ∧ (∀ (σ : Type) (S : Sender σ) (w : σ),
          (main env S fl w).2
            = (propagate S ⟨(loadConfig env fl).1.AccountSID, (loadConfig env fl).1.AuthToken⟩
                (loadConfig env fl).1.Subscribers (loadConfig env fl).1.Number
                (loadConfig env fl).1.NotificationText w).trace)
      ∧ (∀ (env' : Env) (fl' : Flags) (σ : Type) (S : Sender σ) (w : σ),
          (loadConfig env' fl').2 ≠ none → (main env' S fl' w).2 = []) := by
  refine ⟨loadConfig_ok_populated env fl h, fun conf => Validate_eq_none_iff conf, ?_, ?_⟩
  · intro σ S w
    unfold main
    rcases hl : loadConfig env fl with ⟨conf, err⟩
    rw [hl] at h
    simp only at h
    subst h
    simp only
    split <;> rfl
  · intro env' fl' σ S w hne
    unfold main
    rcases hl : loadConfig env' fl' with ⟨conf, _ | err⟩
    · rw [hl] at hne
      exact absurd rfl hne
    · rfl

theorem loadConfig_ok_is_valid_witness :
    (loadConfig envSidToken flagsScenarioB).2 = none
      ∧ (loadConfig envSidToken flagsScenarioB).1.AccountSID ≠ ""
      ∧ (loadConfig envSidToken flagsScenarioB).1.AuthToken ≠ ""
      ∧ 0 < (loadConfig envSidToken flagsScenarioB).1.Subscribers.length
      ∧ (loadConfig envSidToken flagsScenarioB).1.NotificationText ≠ ""
      ∧ (loadConfig envSidToken flagsScenarioB).1.Number ≠ "" :=
  ⟨by decide, (loadConfig_ok_is_valid envSidToken flagsScenarioB (by decide)).1⟩

/-- C5: with a non-empty subscriber-list flag, whatever list the file
provided, the subscribers of the merged configuration are the split of the
flag value on `,`: joining them with `,` gives back the flag value, no element
holds a comma, there is one more element than the value has commas, and the
list is the same for every file content, so nothing of the file's list is in
it. -/
theorem subs_flag_replaces_file_list (env : Env) (fl : Flags) (fc : config)
    (hs : fl.subs ≠ "") (hf : FileYields env fl.confPath fc) :
    (loadConfig env fl).1.Subscribers = strings.Split fl.subs ','
      ∧ strings.Join (loadConfig env fl).1.Subscribers "," = fl.subs
      ∧ (∀ sub ∈ (loadConfig env fl).1.Subscribers, ',' ∉ sub.data)
      ∧ (loadConfig env fl).1.Subscribers.length = fl.subs.data.count ',' + 1
      ∧ (∀ (env' : Env) (fc' : config), FileYields env' fl.confPath fc' →
          (loadConfig env' fl).1.Subscribers = (loadConfig env fl).1.Subscribers) := by
  have hsubs : ∀ (env' : Env) (fc' : config), FileYields env' fl.confPath fc' →
      (loadConfig env' fl).1.Subscribers = strings.Split fl.subs ',' := by
    intro env' fc' hf'
    rw [loadConfig_of_fileYields env' fl fc' hf']
    simp [merged, hs]
  rw [hsubs env fc hf]
  exact ⟨rfl, Join_Split fl.subs, Split_no_comma fl.subs, Split_length fl.subs,
    fun env' fc' hf' => hsubs env' fc' hf'⟩

theorem subs_flag_replaces_file_list_witness :
    flagsSubsOnly.subs ≠ ""
      ∧ FileYields envFull flagsSubsOnly.confPath
          ⟨"AC1", "tok", ["+700", "+800"], "file text", "+555"⟩
      ∧ (loadConfig envFull flagsSubsOnly).1.Subscribers = ["+100", "+200"] :=
  ⟨by decide, Or.inr ⟨by decide, [97], rfl, rfl⟩,
    (subs_flag_replaces_file_list envFull flagsSubsOnly
      ⟨"AC1", "tok", ["+700", "+800"], "file text", "+555"⟩ (by decide)
      (Or.inr ⟨by decide, [97], rfl, rfl⟩)).1.trans (by decide)⟩

/-- C10: when a configuration path is given and reading or decoding the file
fails, `loadConfig` returns an error; it is the read error itself, or the
decoding error wrapped as `unmarshal config`; what `loadConfig` returns is the
same for every value of the five other flags, also when they supply all five
required fields; and the error is never the `invalid config: missing value`
error of validation. -/
theorem file_failure_precedes_flags (env : Env) (fl : Flags) (hp : fl.confPath ≠ "")
    (hfail : (∃ msg, env.ReadFile fl.confPath = .error msg)
      ∨ (∃ f c msg, env.ReadFile fl.confPath = .ok f
          ∧ env.Unmarshal f config.zero = (c, some msg))) :
    (loadConfig env fl).2 ≠ none
      ∧ (∀ msg, env.ReadFile fl.confPath = .error msg →
          loadConfig env fl = (config.zero, some (.external msg)))
      ∧ (∀ f c msg, env.ReadFile fl.confPath = .ok f →
          env.Unmarshal f config.zero = (c, some msg) →
          loadConfig env fl = (c, some (.wrap (.external msg) "unmarshal config")))
      ∧ (∀ fl' : Flags, fl'.confPath = fl.confPath → loadConfig env fl' = loadConfig env fl)
      ∧ (∀ name, (loadConfig env fl).2
          ≠ some (.wrap (.errorf ("missing value: " ++ name)) "invalid config")) := by
  have hread : ∀ (fl' : Flags) (msg : String), fl'.confPath = fl.confPath →
      env.ReadFile fl.confPath = .error msg →
      loadConfig env fl' = (config.zero, some (.external msg)) := by
    intro fl' msg hpath hr
    exact loadConfig_of_read_error env fl' msg (by rw [hpath]; exact hp) (by rw [hpath]; exact hr)
  have hdec : ∀ (fl' : Flags) (f : List UInt8) (c : config) (msg : String),
      fl'.confPath = fl.confPath → env.ReadFile fl.confPath = .ok f →
      env.Unmarshal f config.zero = (c, some msg) →
      loadConfig env fl' = (c, some (.wrap (.external msg) "unmarshal config")) := by
    intro fl' f c msg hpath hr hu
    exact loadConfig_of_unmarshal_error env fl' f c msg (by rw [hpath]; exact hp)
      (by rw [hpath]; exact hr) hu
  refine ⟨?_, fun msg hr => hread fl msg rfl hr, fun f c msg hr hu => hdec fl f c msg rfl hr hu,
    ?_, ?_⟩
  · rcases hfail with ⟨msg, hr⟩ | ⟨f, c, msg, hr, hu⟩
    · rw [hread fl msg rfl hr]
      simp
    · rw [hdec fl f c msg rfl hr hu]
      simp
  · intro fl' hpath
    rcases hfail with ⟨msg, hr⟩ | ⟨f, c, msg, hr, hu⟩
    · rw [hread fl msg rfl hr, hread fl' msg hpath hr]
    · rw [hdec fl f c msg rfl hr hu, hdec fl' f c msg hpath hr hu]
  · intro name
    rcases hfail with ⟨msg, hr⟩ | ⟨f, c, msg, hr, hu⟩
    · rw [hread fl msg rfl hr]
      simp
    · rw [hdec fl f c msg rfl hr hu]
      simp

theorem file_failure_precedes_flags_witness :
    flagsAllFive.confPath ≠ ""
      ∧ envBadYaml.ReadFile flagsAllFive.confPath = .ok [58]
      ∧ envBadYaml.Unmarshal [58] config.zero
          = (config.zero, some "yaml: did not find expected key")
      ∧ loadConfig envBadYaml flagsAllFive
          = (config.zero,
              some (.wrap (.external "yaml: did not find expected key") "unmarshal config")) :=
  ⟨by decide, rfl, rfl,
    (file_failure_precedes_flags envBadYaml flagsAllFive (by decide)
      (Or.inr ⟨[58], config.zero, "yaml: did not find expected key", rfl, rfl⟩)).2.2.1
      [58] config.zero "yaml: did not find expected key" rfl rfl⟩

/-! ## Claims about propagation -/

/-- C2: for every list of subscribers and every send capability, the calls
`propagate` makes are the calls `SendSMS(from, sub, text, "", "")` for the
first `n` subscribers, one each and in input order; every send before the last
one made succeeded; and either `n` is the number of subscribers or the last
send made failed.  So the calls stop with the first failing send, and when no
send fails there is one call per subscriber. -/
theorem propagate_calls_until_first_failure {σ : Type} (S : Sender σ) (tw : Twilio)
    (subs : List String) (sender text : String) (w : σ) :
    ∃ n, n ≤ subs.length
      ∧ (propagate S tw subs sender text w).trace.map Prod.fst
          = (subs.take n).map (fun sub => (⟨sender, sub, text, "", ""⟩ : SendCall))
      ∧ ((propagate S tw subs sender text w).trace, (propagate S tw subs sender text w).world)
          = issue S tw ((subs.take n).map (fun sub => (⟨sender, sub, text, "", ""⟩ : SendCall))) w
      ∧ (∀ e ∈ (propagate S tw subs sender text w).trace.dropLast, e.2.ok)
      ∧ (n = subs.length
          ∨ ∃ e, (propagate S tw subs sender text w).trace.getLast? = some e ∧ ¬ e.2.ok)
      ∧ ((∀ e ∈ (propagate S tw subs sender text w).trace, e.2.ok) →
          (propagate S tw subs sender text w).trace.map Prod.fst
            = subs.map (fun sub => (⟨sender, sub, text, "", ""⟩ : SendCall))) := by
  obtain ⟨n, hn, htr, hlast⟩ := propagate_issue S tw subs sender text w
  have hcalls := propagate_calls_eq S tw subs sender text w n htr
  refine ⟨n, hn, hcalls, htr, propagate_dropLast_ok S tw subs sender text w, hlast, ?_⟩
  intro hall
  rcases hlast with hlen | ⟨e, he, hbad⟩
  · rw [hcalls, hlen, List.take_length]
    rfl
  · exact absurd (hall e (List.mem_of_mem_getLast? he)) hbad

theorem propagate_calls_until_first_failure_witness :
    (propagate senderRejects200 twilioAC1 ["+100", "+200", "+300"] "+999" "hi" 0).trace.map Prod.fst
        = [⟨"+999", "+100", "hi", "", ""⟩, ⟨"+999", "+200", "hi", "", ""⟩]
      ∧ (propagate senderRejects200 twilioAC1 ["+100", "+200", "+300"] "+999" "hi" 0).world = 2
      ∧ ∃ n, n ≤ 3
        ∧ (propagate senderRejects200 twilioAC1 ["+100", "+200", "+300"] "+999" "hi" 0).trace.map
            Prod.fst
          = (["+100", "+200", "+300"].take n).map
              (fun sub => (⟨"+999", sub, "hi", "", ""⟩ : SendCall)) := by
  refine ⟨by decide, by decide, ?_⟩
  obtain ⟨n, hn, hcalls, _⟩ := propagate_calls_until_first_failure senderRejects200 twilioAC1
    ["+100", "+200", "+300"] "+999" "hi" 0
  exact ⟨n, hn, hcalls⟩

/-- C6: when `propagate` returns nil, it made exactly one send for every
subscriber, in input order, and each of those sends returned neither a
transport error nor a provider exception. -/
theorem propagate_nil_only_if_all_sent {σ : Type} (S : Sender σ) (tw : Twilio)
    (subs : List String) (sender text : String) (w : σ)
    (h : (propagate S tw subs sender text w).err = none) :
    (propagate S tw subs sender text w).trace.map Prod.fst
        = subs.map (fun sub => (⟨sender, sub, text, "", ""⟩ : SendCall))
      ∧ ((propagate S tw subs sender text w).trace, (propagate S tw subs sender text w).world)
          = issue S tw (subs.map (fun sub => (⟨sender, sub, text, "", ""⟩ : SendCall))) w
      ∧ (∀ e ∈ (propagate S tw subs sender text w).trace, e.2.err = none ∧ e.2.exc = none)
      ∧ (∀ sub ∈ subs, ∃ e ∈ (propagate S tw subs sender text w).trace,
          e.1 = ⟨sender, sub, text, "", ""⟩ ∧ e.2.err = none ∧ e.2.exc = none) := by
  have hall := propagate_ok_all S tw subs sender text w h
  obtain ⟨n, hn, htr, hlast⟩ := propagate_issue S tw subs sender text w
  have hlen : n = subs.length := by
    rcases hlast with hlen | ⟨e, he, hbad⟩
    · exact hlen
    · exact absurd (hall e (List.mem_of_mem_getLast? he)) hbad
  rw [hlen, List.take_length] at htr
  have hcalls : (propagate S tw subs sender text w).trace.map Prod.fst
      = subs.map (sendCallFor sender text) := by
    have h1 := congrArg Prod.fst htr
    simp only at h1
    rw [h1, issue_map_fst]
  refine ⟨hcalls, htr, hall, ?_⟩
  intro sub hsub
  have hmem : sendCallFor sender text sub
      ∈ (propagate S tw subs sender text w).trace.map Prod.fst := by
    rw [hcalls]
    exact List.mem_map_of_mem _ hsub
  obtain ⟨e, he, heq⟩ := List.mem_map.mp hmem
  exact ⟨e, he, heq, hall e he⟩

theorem propagate_nil_only_if_all_sent_witness :
    (propagate senderOk twilioAC1 ["+100", "+200"] "+999" "hi" 0).err = none
      ∧ (propagate senderOk twilioAC1 ["+100", "+200"] "+999" "hi" 0).trace
          = [(⟨"+999", "+100", "hi", "", ""⟩, ⟨none, none⟩),
              (⟨"+999", "+200", "hi", "", ""⟩, ⟨none, none⟩)]
      ∧ (propagate senderOk twilioAC1 ["+100", "+200"] "+999" "hi" 0).trace.map Prod.fst
          = [⟨"+999", "+100", "hi", "", ""⟩, ⟨"+999", "+200", "hi", "", ""⟩] :=
  ⟨by decide, by decide,
    (propagate_nil_only_if_all_sent senderOk twilioAC1 ["+100", "+200"] "+999" "hi" 0
      (by decide)).1⟩

/-- C7, as the claim states it, fails: two provider exceptions that differ in
message and more-info reference make `propagate` return the same error, so the
four fields cannot all be recovered from it. -/
theorem provider_exception_fields_not_recoverable :
    excA.Message ≠ excB.Message ∧ excA.MoreInfo ≠ excB.MoreInfo
      ∧ (propagate (senderRejecting excA) twilioAC1 ["+100"] "+999" "hi" ()).err
          = some (.errorf "send SMS: code: 1, status: 2, message: a, more info: b, more info: c")
      ∧ (propagate (senderRejecting excB) twilioAC1 ["+100"] "+999" "hi" ()).err
          = some (.errorf "send SMS: code: 1, status: 2, message: a, more info: b, more info: c") := by
  decide

/-- C7, amended: when the last send `propagate` made (every earlier one having
succeeded) returned no transport error and the provider exception `exc`,
`propagate` returns the `fmt.Errorf` error whose message is
`send SMS: code: <code>, status: <status>, message: <message>, more info: <more-info>`
with the code and status in decimal and the two strings copied unchanged.
From that message the code and the status are recovered, and so is the text
`<message>, more info: <more-info>`; the message and the more-info reference
are recovered separately when the message holds no comma. -/
theorem provider_exception_rendered {σ : Type} (S : Sender σ) (tw : Twilio)
    (subs : List String) (sender text : String) (w : σ) (c : SendCall) (exc : Exception)
    (h : (propagate S tw subs sender text w).trace.getLast? = some (c, ⟨some exc, none⟩)) :
    (propagate S tw subs sender text w).err
        = some (.errorf ("send SMS: code: " ++ toString exc.Code ++ ", status: "
            ++ toString exc.Status ++ ", message: " ++ exc.Message ++ ", more info: "
            ++ exc.MoreInfo))
      ∧ (∀ e ∈ (propagate S tw subs sender text w).trace.dropLast, e.2.ok)
      ∧ (∀ exc' : Exception,
          (propagate S tw subs sender text w).err = some (.errorf (excMessage exc')) →
          exc'.Code = exc.Code ∧ exc'.Status = exc.Status
            ∧ exc'.Message ++ ", more info: " ++ exc'.MoreInfo
                = exc.Message ++ ", more info: " ++ exc.MoreInfo
            ∧ (',' ∉ exc'.Message.data → ',' ∉ exc.Message.data → exc' = exc)) := by
  have herr : (propagate S tw subs sender text w).err = some (.errorf (excMessage exc)) := by
    rw [propagate_err, h]
    rfl
  refine ⟨herr, propagate_dropLast_ok S tw subs sender text w, ?_⟩
  intro exc' h'
  rw [herr] at h'
  have hmsg : excMessage exc' = excMessage exc := by
    simpa using h'.symm
  exact excMessage_recover exc' exc hmsg

theorem provider_exception_rendered_witness :
    (propagate senderRejects200 twilioAC1 ["+100", "+200"] "+999" "hi" 0).trace.getLast?
        = some (⟨"+999", "+200", "hi", "", ""⟩, ⟨some excInvalidNumber, none⟩)
      ∧ (propagate senderRejects200 twilioAC1 ["+100", "+200"] "+999" "hi" 0).trace.length = 2
      ∧ (propagate senderRejects200 twilioAC1 ["+100", "+200"] "+999" "hi" 0).err
          = some (.errorf ("send SMS: code: 21211, status: 400, message: invalid number, "
              ++ "more info: https://www.twilio.com/docs/errors/21211")) :=
  ⟨by decide, by decide,
    (provider_exception_rendered senderRejects200 twilioAC1 ["+100", "+200"] "+999" "hi" 0
      ⟨"+999", "+200", "hi", "", ""⟩ excInvalidNumber (by decide)).1.trans (by decide)⟩

/-- C8, as the claim states it, fails: for an unreadable configuration file
the error `loadConfig` returns is the read error as it is, with no
`load config` label (and no label at all). -/
theorem read_error_not_labelled :
    (loadConfig envNoFile flagsAllFive).2
        = some (.external "open conf.yaml: no such file or directory")
      ∧ (loadConfig envNoFile flagsAllFive).2.map GoError.Error
          = some "open conf.yaml: no such file or directory"
      ∧ ¬ labelled "load config" (.external "open conf.yaml: no such file or directory") := by
  refine ⟨by decide, by decide, ?_⟩
  rintro ⟨rest, hrest⟩
  have hd := congrArg (fun s : String => s.data.head?) hrest
  simp [GoError.Error, String.data_append] at hd

/-- C8, amended: an unreadable configuration file makes `loadConfig` return
the read error as it is, without a label; an undecodable file makes it return
the decoding error wrapped with the label `unmarshal config`; a failed
validation makes it return the validation error wrapped with the label
`invalid config`; and these are the only errors `loadConfig` returns.  `main`
puts `load config: ` before the message of every error `loadConfig` returns
and makes no send.  A first failing send makes `propagate` return the
transport error wrapped with the label `send SMS`, or, when there is no
transport error, the provider-exception error whose message begins with
`send SMS: `; these are the only errors `propagate` returns, and `main` logs
such an error with no further label. -/
theorem stage_labels (env : Env) (fl : Flags) :
    (∀ msg, fl.confPath ≠ "" → env.ReadFile fl.confPath = .error msg →
        loadConfig env fl = (config.zero, some (.external msg))
          ∧ (GoError.external msg).Error = msg)
      ∧ (∀ f c msg, fl.confPath ≠ "" → env.ReadFile fl.confPath = .ok f →
          env.Unmarshal f config.zero = (c, some msg) →
          loadConfig env fl = (c, some (.wrap (.external msg) "unmarshal config"))
            ∧ (GoError.wrap (.external msg) "unmarshal config").Error
                = "unmarshal config: " ++ msg)
      ∧ (∀ fc, FileYields env fl.confPath fc →
          (∀ v, (loadConfig env fl).1.Validate = some v →
            (loadConfig env fl).2 = some (.wrap v "invalid config")
              ∧ (GoError.wrap v "invalid config").Error = "invalid config: " ++ v.Error)
          ∧ (∀ name later, missingFields (loadConfig env fl).1 = name :: later →
              (loadConfig env fl).2
                = some (.wrap (.errorf ("missing value: " ++ name)) "invalid config")))
      ∧ (∀ e, (loadConfig env fl).2 = some e →
          (∃ msg, fl.confPath ≠ "" ∧ env.ReadFile fl.confPath = .error msg ∧ e = .external msg
              ∧ e.Error = msg)
            ∨ (∃ f c msg, fl.confPath ≠ "" ∧ env.ReadFile fl.confPath = .ok f
                ∧ env.Unmarshal f config.zero = (c, some msg)
                ∧ e = .wrap (.external msg) "unmarshal config"
                ∧ e.Error = "unmarshal config: " ++ msg)
            ∨ (∃ name,
                (loadConfig env fl).1.Validate = some (.errorf ("missing value: " ++ name))
                ∧ e = .wrap (.errorf ("missing value: " ++ name)) "invalid config"
                ∧ e.Error = "invalid config: missing value: " ++ name))
      ∧ (∀ (σ : Type) (S : Sender σ) (w : σ) (e : GoError), (loadConfig env fl).2 = some e →
          main env S fl w = (.fatal ("load config: " ++ e.Error), []))
      ∧ (∀ (σ : Type) (S : Sender σ) (tw : Twilio) (pre : List String) (sub : String)
          (post : List String) (sender text : String) (w : σ),
          (∀ e ∈ (issue S tw (pre.map (fun s => (⟨sender, s, text, "", ""⟩ : SendCall))) w).1,
            e.2.ok) →
          (∀ msg,
            (S (issue S tw (pre.map (fun s => (⟨sender, s, text, "", ""⟩ : SendCall))) w).2 tw
                ⟨sender, sub, text, "", ""⟩).1.err = some msg →
            (propagate S tw (pre ++ sub :: post) sender text w).err
                = some (.wrap (.external msg) "send SMS")
              ∧ (GoError.wrap (.external msg) "send SMS").Error = "send SMS: " ++ msg)
          ∧ (∀ exc,
            (S (issue S tw (pre.map (fun s => (⟨sender, s, text, "", ""⟩ : SendCall))) w).2 tw
                ⟨sender, sub, text, "", ""⟩).1.err = none →
            (S (issue S tw (pre.map (fun s => (⟨sender, s, text, "", ""⟩ : SendCall))) w).2 tw
                ⟨sender, sub, text, "", ""⟩).1.exc = some exc →
            (propagate S tw (pre ++ sub :: post) sender text w).err
                = some (.errorf ("send SMS: code: " ++ toString exc.Code ++ ", status: "
                    ++ toString exc.Status ++ ", message: " ++ exc.Message ++ ", more info: "
                    ++ exc.MoreInfo))))
      ∧ (∀ (σ : Type) (S : Sender σ) (tw : Twilio) (subs : List String) (sender text : String)
          (w : σ) (e' : GoError), (propagate S tw subs sender text w).err = some e' →
          ((∃ msg, e' = .wrap (.external msg) "send SMS" ∧ e'.Error = "send SMS: " ++ msg)
              ∨ (∃ exc : Exception, e' = .errorf (excMessage exc)))
            ∧ labelled "send SMS" e')
      ∧ (∀ (σ : Type) (S : Sender σ) (w : σ) (e' : GoError), (loadConfig env fl).2 = none →
          (propagate S ⟨(loadConfig env fl).1.AccountSID, (loadConfig env fl).1.AuthToken⟩
            (loadConfig env fl).1.Subscribers (loadConfig env fl).1.Number
            (loadConfig env fl).1.NotificationText w).err = some e' →
          (main env S fl w).1 = .fatal e'.Error) := by
  refine ⟨?_, ?_, ?_, loadConfig_err_cases env fl, ?_, ?_, ?_, ?_⟩
  · intro msg hp hr
    exact ⟨loadConfig_of_read_error env fl msg hp hr, rfl⟩
  · intro f c msg hp hr hu
    refine ⟨loadConfig_of_unmarshal_error env fl f c msg hp hr hu, ?_⟩
    apply String.ext
    simp [GoError.Error, String.data_append]
  · intro fc hf
    have hl := loadConfig_of_fileYields env fl fc hf
    refine ⟨?_, ?_⟩
    · intro v hv
      rw [hl] at hv ⊢
      simp only at hv ⊢
      rw [hv]
      refine ⟨rfl, ?_⟩
      apply String.ext
      simp [GoError.Error, String.data_append]
    · intro name later hm
      rw [hl] at hm ⊢
      simp only at hm ⊢
      rw [Validate_eq_head_missingFields, hm]
      rfl
  · intro σ S w e h
    exact main_of_loadConfig_err env S fl w e h
  · intro σ S tw pre sub post sender text w hok
    refine ⟨?_, ?_⟩
    · intro msg hmsg
      have hbad : ¬ (S (issue S tw (pre.map (sendCallFor sender text)) w).2 tw
          (sendCallFor sender text sub)).1.ok := by
        intro hgood
        have h1 : (S (issue S tw (pre.map (sendCallFor sender text)) w).2 tw
            (sendCallFor sender text sub)).1.err = some msg := hmsg
        rw [hgood.1] at h1
        exact absurd h1 (by simp)
      have hf := (propagate_first_failure S tw pre sub post sender text w hok hbad).1
      have h1 : (S (issue S tw (pre.map (sendCallFor sender text)) w).2 tw
          (sendCallFor sender text sub)).1.err = some msg := hmsg
      refine ⟨?_, ?_⟩
      · rw [hf, sendError, h1]
        rfl
      · apply String.ext
        simp [GoError.Error, String.data_append]
    · intro exc hnone hexc
      have h1 : (S (issue S tw (pre.map (sendCallFor sender text)) w).2 tw
          (sendCallFor sender text sub)).1.err = none := hnone
      have h2 : (S (issue S tw (pre.map (sendCallFor sender text)) w).2 tw
          (sendCallFor sender text sub)).1.exc = some exc := hexc
      have hbad : ¬ (S (issue S tw (pre.map (sendCallFor sender text)) w).2 tw
          (sendCallFor sender text sub)).1.ok := by
        intro hgood
        rw [hgood.2] at h2
        exact absurd h2 (by simp)
      have hf := (propagate_first_failure S tw pre sub post sender text w hok hbad).1
      rw [hf, sendError, h1, h2]
      rfl
  · intro σ S tw subs sender text w e' he'
    exact propagate_err_cases S tw subs sender text w e' he'
  · intro σ S w e' hnone hsend
    rw [main_of_loadConfig_ok env S fl w hnone, hsend]

theorem stage_labels_witness :
    loadConfig envNoFile flagsAllFive
        = (config.zero, some (.external "open conf.yaml: no such file or directory"))
      ∧ loadConfig envBadYaml flagsAllFive
          = (config.zero,
              some (.wrap (.external "yaml: did not find expected key") "unmarshal config"))
      ∧ (loadConfig envNoFile noFlags).2
          = some (.wrap (.errorf "missing value: account SID") "invalid config")
      ∧ main envBadYaml senderOk flagsAllFive 0
          = (.fatal "load config: unmarshal config: yaml: did not find expected key", [])
      ∧ (propagate senderDown twilioAC1 ["+100", "+200"] "+999" "hi" 0).err
          = some (.wrap (.external "dial tcp: i/o timeout") "send SMS")
      ∧ (propagate senderRejects200 twilioAC1 ["+100", "+200", "+300"] "+999" "hi" 0).err
          = some (.errorf ("send SMS: code: 21211, status: 400, message: invalid number, "
              ++ "more info: https://www.twilio.com/docs/errors/21211")) :=
  ⟨((stage_labels envNoFile flagsAllFive).1
      "open conf.yaml: no such file or directory" (by decide) rfl).1,
    ((stage_labels envBadYaml flagsAllFive).2.1 [58] config.zero
      "yaml: did not find expected key" (by decide) rfl rfl).1,
    ((stage_labels envNoFile noFlags).2.2.1 config.zero (Or.inl ⟨rfl, rfl⟩)).2
      "account SID" ["auth token", "subscribers", "notification text", "number"] (by decide),
    ((stage_labels envBadYaml flagsAllFive).2.2.2.2.1 Nat senderOk 0
      (.wrap (.external "yaml: did not find expected key") "unmarshal config")
      (by decide)).trans (by decide),
    (((stage_labels envNoFile noFlags).2.2.2.2.2.1 Nat senderDown twilioAC1 [] "+100" ["+200"]
      "+999" "hi" 0 (by decide)).1 "dial tcp: i/o timeout" (by decide)).1,
    (((stage_labels envNoFile noFlags).2.2.2.2.2.1 Nat senderRejects200 twilioAC1 ["+100"] "+200"
      ["+300"] "+999" "hi" 0 (by decide)).2 excInvalidNumber (by decide) (by decide)).trans
      (by decide)⟩

/-- C9: validation looks at the length of the subscriber list only.  With the
subscriber-list flag `,` and the four other fields given by flags, the split is
`["", ""]`, `loadConfig` returns it without error, and the first send of
`propagate` and of `main` has the empty string as destination, whatever the
send capability; with the flag `+100,,+200` the split is `["+100", "", "+200"]`,
accepted as well, and a run whose sends succeed sends to the empty string. -/
theorem empty_subscriber_is_sent (env : Env) {σ : Type} (S : Sender σ) (w : σ) :
    strings.Split "," ',' = ["", ""]
      ∧ loadConfig env flagsComma = (⟨"AC1", "tok", ["", ""], "hi", "+999"⟩, none)
      ∧ (⟨"AC1", "tok", ["", ""], "hi", "+999"⟩ : config).Validate = none
      ∧ (propagate S ⟨"AC1", "tok"⟩ ["", ""] "+999" "hi" w).trace.head?.map Prod.fst
          = some ⟨"+999", "", "hi", "", ""⟩
      ∧ (main env S flagsComma w).2.head?.map Prod.fst = some ⟨"+999", "", "hi", "", ""⟩
      ∧ strings.Split "+100,,+200" ',' = ["+100", "", "+200"]
      ∧ loadConfig env flagsGap = (⟨"AC1", "tok", ["+100", "", "+200"], "hi", "+999"⟩, none)
      ∧ (main env senderOk flagsGap 0).2.map Prod.fst
          = [⟨"+999", "+100", "hi", "", ""⟩, ⟨"+999", "", "hi", "", ""⟩,
              ⟨"+999", "+200", "hi", "", ""⟩] := by
  have hc : loadConfig env flagsComma = (⟨"AC1", "tok", ["", ""], "hi", "+999"⟩, none) := by
    rw [loadConfig_of_fileYields env flagsComma config.zero (Or.inl ⟨rfl, rfl⟩)]
    decide
  have hg : loadConfig env flagsGap
      = (⟨"AC1", "tok", ["+100", "", "+200"], "hi", "+999"⟩, none) := by
    rw [loadConfig_of_fileYields env flagsGap config.zero (Or.inl ⟨rfl, rfl⟩)]
    decide
  have hhead : (propagate S ⟨"AC1", "tok"⟩ ["", ""] "+999" "hi" w).trace.head?.map Prod.fst
      = some ⟨"+999", "", "hi", "", ""⟩ := by
    rw [propagate_trace_head]
    rfl
  refine ⟨by decide, hc, by decide, hhead, ?_, by decide, hg, ?_⟩
  · unfold main
    rw [hc]
    simp only
    split <;> exact hhead
  · unfold main
    rw [hg]
    decide

end Notify
